import Mathlib

/-!
Verification development for the avatar animation core of this repository:
the Mixamo-to-VRM skeletal retargeter (lib/loadMixamoAnimation.ts), the
text-to-phoneme / viseme-timeline lip-sync pipeline (lib/lipSync.ts), the
lip-sync scheduler and audio handlers (components/ChatBox.tsx), and the
animation crossfade path (components/VrmViewer.tsx).

Numbers are modelled with rationals; JavaScript strings are modelled through
their character lists.  Fallible code paths (JavaScript TypeError throws on
null dereference) are modelled with Except.
-/

deriving instance DecidableEq for Except

/-! ## Lip sync data model (lib/lipSync.ts) -/

/-- Mouth-shape weight vector, from the Viseme interface of lib/lipSync.ts. -/
structure Viseme where
  aa : ℚ
  ih : ℚ
  ou : ℚ
  ee : ℚ
deriving DecidableEq

/-- The all-zero mouth shape (closed mouth). -/
def zeroViseme : Viseme := ⟨0, 0, 0, 0⟩

/-- The entry stored under the "default" key of PHONEME_MAP. -/
def defaultViseme : Viseme := ⟨1/5, 0, 0, 0⟩

/-- The phoneme-to-viseme table PHONEME_MAP of lib/lipSync.ts
(0.8 = 4/5 and so on, as exact rationals). -/
def PHONEME_MAP : String → Option Viseme := fun p =>
  if p = "a" then some ⟨4/5, 0, 0, 0⟩
  else if p = "e" then some ⟨0, 7/10, 0, 0⟩
  else if p = "i" then some ⟨0, 9/10, 0, 0⟩
  else if p = "o" then some ⟨0, 0, 4/5, 0⟩
  else if p = "u" then some ⟨0, 0, 9/10, 0⟩
  else if p = "ay" then some ⟨3/5, 0, 0, 2/5⟩
  else if p = "ee" then some ⟨0, 0, 0, 9/10⟩
  else if p = "oo" then some ⟨0, 0, 1, 0⟩
  else if p = "ow" then some ⟨1/2, 0, 1/2, 0⟩
  else if p = "b" then some ⟨0, 0, 0, 0⟩
  else if p = "p" then some ⟨0, 0, 0, 0⟩
  else if p = "m" then some ⟨0, 0, 0, 0⟩
  else if p = "f" then some ⟨0, 3/10, 0, 0⟩
  else if p = "v" then some ⟨0, 3/10, 0, 0⟩
  else if p = "w" then some ⟨0, 0, 7/10, 0⟩
  else if p = "r" then some ⟨0, 0, 1/2, 0⟩
  else if p = "default" then some defaultViseme
  else none

/-- ASCII whitespace, modelling the regex class \s used in textToPhonemes. -/
def isWsChar (c : Char) : Bool :=
  c = ' ' || c = '\t' || c = '\n' || c = '\r' || c = '\x0b' || c = '\x0c'

/-- The regex word class \w (letters, digits, underscore). -/
def isWordLikeChar (c : Char) : Bool := c.isAlphanum || c = '_'

/-- Model of text.replace with the class of non-word non-space characters
replaced by nothing: keep exactly word characters and whitespace. -/
def stripNonWord (l : List Char) : List Char :=
  l.filter (fun c => isWordLikeChar c || isWsChar c)

/-- Model of JavaScript String.split on a whitespace regex: pieces between
maximal whitespace runs, keeping empty pieces at the ends.  So the empty
string splits to one empty word, and an all-space string to two.  The
inRun flag records whether the previous character belonged to a whitespace
run, so that a run of several whitespace characters acts as one single
separator. -/
def splitWsGo (inRun : Bool) (cur : List Char) : List Char → List (List Char)
  | [] => [cur.reverse]
  | c :: rest =>
    if isWsChar c then
      if inRun then splitWsGo true [] rest
      else cur.reverse :: splitWsGo true [] rest
    else splitWsGo false (c :: cur) rest

/-- Split a character list on whitespace runs, JavaScript style. -/
def splitWhitespace (l : List Char) : List (List Char) := splitWsGo false [] l

/-- The 'aeiou'.includes test of textToPhonemes. -/
def isVowelChar (c : Char) : Bool :=
  c = 'a' || c = 'e' || c = 'i' || c = 'o' || c = 'u'

/-- The 'bpmfvwr'.includes test of textToPhonemes. -/
def isShapeConsonant (c : Char) : Bool :=
  c = 'b' || c = 'p' || c = 'm' || c = 'f' || c = 'v' || c = 'w' || c = 'r'

/-- The single-character branches of the textToPhonemes loop body:
a vowel or tracked consonant is emitted as itself, anything else as
the fallback symbol. -/
def charPhoneme (c : Char) : String :=
  if isVowelChar c then String.mk [c]
  else if isShapeConsonant c then String.mk [c]
  else "default"

/-- The per-word character loop of textToPhonemes: the four digraph tests in
source order consume two characters, every other character one. -/
def wordToPhonemes : List Char → List String
  | [] => []
  | [c] => [charPhoneme c]
  | c :: c2 :: rest =>
    if c = 'e' && c2 = 'e' then "ee" :: wordToPhonemes rest
    else if c = 'o' && c2 = 'o' then "oo" :: wordToPhonemes rest
    else if c = 'a' && c2 = 'y' then "ay" :: wordToPhonemes rest
    else if c = 'o' && c2 = 'w' then "ow" :: wordToPhonemes rest
    else charPhoneme c :: wordToPhonemes (c2 :: rest)

/-- textToPhonemes of lib/lipSync.ts: lowercase, strip punctuation, split on
whitespace, emit phonemes per word and one pause marker after each word. -/
def textToPhonemes (text : String) : List String :=
  ((splitWhitespace (stripNonWord (text.data.map Char.toLower))).map
    (fun w => wordToPhonemes w ++ ["pause"])).flatten

/-- JavaScript Array.map with the element index as second callback argument,
made explicit with a starting index. -/
def jsMapIdx {α β : Type} (f : ℕ → α → β) : ℕ → List α → List β
  | _, [] => []
  | i, a :: l => f i a :: jsMapIdx f (i + 1) l

/-- The per-phoneme viseme selection of generateLipSyncData: the pause symbol
yields the all-zero shape, otherwise the table entry with the default entry
as fallback. -/
def visemeForPhoneme (p : String) : Viseme :=
  if p = "pause" then zeroViseme
  else match PHONEME_MAP p with
    | some v => v
    | none => defaultViseme

/-- The frame construction step of generateLipSyncData, applied to an
already computed phoneme list: equal time slices, the i-th frame stamped
at i times the slice. -/
def buildFrames (phonemes : List String) (duration : ℚ) : List (ℚ × Viseme) :=
  let timePerPhoneme := duration / (phonemes.length : ℚ)
  jsMapIdx (fun i p => ((i : ℚ) * timePerPhoneme, visemeForPhoneme p)) 0 phonemes

/-- generateLipSyncData of lib/lipSync.ts. -/
def generateLipSyncData (text : String) (duration : ℚ) : List (ℚ × Viseme) :=
  buildFrames (textToPhonemes text) duration

/-! ## Lip-sync scheduler (components/ChatBox.tsx, updateLipSync) -/

/-- The while loop of updateLipSync: advance the cursor while a next frame
exists and its timestamp is at most the elapsed time. -/
def updateLipSyncAdvance (frames : List (ℚ × Viseme)) (elapsed : ℚ) (idx : ℕ) : ℕ :=
  if h : idx < frames.length - 1 ∧ (frames.getD (idx + 1) (0, zeroViseme)).1 ≤ elapsed then
    updateLipSyncAdvance frames elapsed (idx + 1)
  else idx
termination_by frames.length - idx
decreasing_by omega

/-- The emission step of updateLipSync after the loop: the weights of the
frame under the cursor, when the cursor is in range. -/
def updateLipSyncEmits (frames : List (ℚ × Viseme)) (idx : ℕ) : Option Viseme :=
  if idx < frames.length then some ((frames.getD idx (0, zeroViseme)).2) else none

/-- The rescheduling guard at the end of updateLipSync: another tick is
requested only while the audio is neither paused nor ended. -/
def lipSyncReschedules (paused ended : Bool) : Bool := !paused && !ended

/-! ## Audio end and pause handlers (components/ChatBox.tsx, handleSend) -/

/-- One call to the onExpressionChange callback: control type, name, value. -/
abbrev ControlCall := String × String × ℚ

/-- The calls emitted by the audio ended handler: zero the four mouth
weights, then request the idle body animation. -/
def onEndedCalls : List ControlCall :=
  [("viseme", "aa", 0), ("viseme", "ih", 0), ("viseme", "ou", 0),
   ("viseme", "ee", 0), ("animation", "idle", 1)]

/-- The calls emitted by the audio pause handler: none. -/
def onPauseCalls : List ControlCall := []

/-- The ended handler cancels the pending animation frame. -/
def onEndedCancelsFrame : Bool := true

/-- The pause handler cancels the pending animation frame. -/
def onPauseCancelsFrame : Bool := true

/-! ## Viewer-side control interpreter (components/VrmViewer.tsx) -/

/-- EXPRESSION_PRESETS of components/VrmViewer.tsx. -/
def EXPRESSION_PRESETS : String → Option (List (String × ℚ)) := fun n =>
  if n = "neutral" then
    some [("happy", 0), ("angry", 0), ("sad", 0), ("relaxed", 0), ("surprised", 0)]
  else if n = "happy" then
    some [("happy", 1), ("angry", 0), ("sad", 0), ("relaxed", 3/10), ("surprised", 0)]
  else if n = "angry" then
    some [("happy", 0), ("angry", 1), ("sad", 0), ("relaxed", 0), ("surprised", 0)]
  else if n = "sad" then
    some [("happy", 0), ("angry", 0), ("sad", 1), ("relaxed", 0), ("surprised", 0)]
  else if n = "surprised" then
    some [("happy", 0), ("angry", 0), ("sad", 0), ("relaxed", 0), ("surprised", 1)]
  else if n = "relaxed" then
    some [("happy", 3/10), ("angry", 0), ("sad", 0), ("relaxed", 1), ("surprised", 0)]
  else none

/-- Avatar runtime state observed by the control handler: the expression
manager weights addressed by name, and the list of requested body
animation resources. -/
structure ViewerState where
  weights : String → ℚ
  animationRequests : List String

/-- expressionManager.setValue. -/
def setExpressionValue (w : String → ℚ) (n : String) (v : ℚ) : String → ℚ :=
  fun m => if m = n then v else w m

/-- The loop of applyExpressionPreset: set each preset entry present in the
available expression list to its preset value. -/
def applyPresetRaw (avail : List String) (w : String → ℚ)
    (entries : List (String × ℚ)) : String → ℚ :=
  entries.foldl
    (fun acc e => if e.1 ∈ avail then setExpressionValue acc e.1 e.2 else acc) w

/-- The second loop of the expression branch of handleAnimationControl:
set each available preset entry to its preset value times the intensity. -/
def applyPresetScaled (avail : List String) (w : String → ℚ)
    (entries : List (String × ℚ)) (value : ℚ) : String → ℚ :=
  entries.foldl
    (fun acc e => if e.1 ∈ avail then setExpressionValue acc e.1 (e.2 * value) else acc) w

/-- handleAnimationControl of components/VrmViewer.tsx.  An expression call
with an unknown preset name models the JavaScript TypeError thrown by
Object.entries(undefined) inside applyExpressionPreset. -/
def handleAnimationControl (vrmLoaded : Bool) (avail : List String)
    (st : ViewerState) (c : ControlCall) : Except String ViewerState :=
  if !vrmLoaded then .ok st else
  match c with
  | ("expression", name, value) =>
    match EXPRESSION_PRESETS name with
    | none => .error "TypeError: Object.entries called on undefined"
    | some entries =>
      let w1 := applyPresetRaw avail st.weights entries
      let w2 := applyPresetScaled avail w1 entries value
      .ok { st with weights := w2 }
  | ("animation", name, _) =>
    .ok { st with animationRequests :=
            st.animationRequests ++ ["/animations/" ++ name ++ ".fbx"] }
  | ("viseme", name, value) =>
    .ok { st with weights :=
            if name ∈ avail then setExpressionValue st.weights name value
            else st.weights }
  | _ => .ok st

/-- Run a list of control calls in order through handleAnimationControl. -/
def runControlCalls (vrmLoaded : Bool) (avail : List String)
    (st : ViewerState) (calls : List ControlCall) : Except String ViewerState :=
  calls.foldlM (handleAnimationControl vrmLoaded avail) st

/-! ## Animation crossfade path (components/VrmViewer.tsx, handleAnimation) -/

/-- Commands issued to THREE animation actions by handleAnimation. -/
inductive ActionCmd
  | reset : ℕ → ActionCmd
  | crossFade : ℕ → ℕ → ℚ → ActionCmd
  | play : ℕ → ActionCmd
deriving DecidableEq

/-- The mixer-side state handleAnimation manipulates: the current action
reference, and a counter modelling that each request loads a fresh clip and
therefore obtains a fresh action from mixer.clipAction. -/
structure MixerState where
  current : Option ℕ
  nextId : ℕ
deriving DecidableEq

/-- The action-swapping tail of handleAnimation (after the clip loads):
reset the freshly created action, then either crossfade from the current
action over the constant 0.5 seconds, or play directly when nothing is
playing yet; the new action becomes current.  There is no check comparing
the request against the action already playing. -/
def requestAnimation (st : MixerState) (_url : String) : MixerState × List ActionCmd :=
  let newAction := st.nextId
  match st.current with
  | some cur =>
    (⟨some newAction, st.nextId + 1⟩,
     [ActionCmd.reset newAction, ActionCmd.crossFade cur newAction (1/2),
      ActionCmd.play newAction])
  | none =>
    (⟨some newAction, st.nextId + 1⟩,
     [ActionCmd.reset newAction, ActionCmd.play newAction])

/-! ## Skeletal retargeting (lib/loadMixamoAnimation.ts) -/

/-- Quaternion as a 4-tuple of rationals, component order x y z w as in
THREE.Quaternion. -/
structure Quat where
  x : ℚ
  y : ℚ
  z : ℚ
  w : ℚ
deriving DecidableEq

/-- THREE.Quaternion.multiplyQuaternions, so quatMul a b is the THREE
product a times b; premultiply(q) is quatMul q this and multiply(q) is
quatMul this q. -/
def quatMul (a b : Quat) : Quat :=
  ⟨a.x * b.w + a.w * b.x + a.y * b.z - a.z * b.y,
   a.y * b.w + a.w * b.y + a.z * b.x - a.x * b.z,
   a.z * b.w + a.w * b.z + a.x * b.y - a.y * b.x,
   a.w * b.w - a.x * b.x - a.y * b.y - a.z * b.z⟩

/-- THREE.Quaternion.invert, which conjugates (unit length assumed). -/
def quatConj (q : Quat) : Quat := ⟨-q.x, -q.y, -q.z, q.w⟩

/-- A keyframe track: rotation values are a flat list of 4-tuples, position
values a flat list of 3-tuples, exactly as the flat typed arrays of
THREE.QuaternionKeyframeTrack and THREE.VectorKeyframeTrack. -/
inductive Track
  | rotation : String → List ℚ → List ℚ → Track
  | position : String → List ℚ → List ℚ → Track
deriving DecidableEq

/-- Name of a track. -/
def Track.trackName : Track → String
  | .rotation n _ _ => n
  | .position n _ _ => n

/-- An animation clip: name, duration, tracks. -/
structure Clip where
  name : String
  duration : ℚ
  tracks : List Track
deriving DecidableEq

/-- A bone node of the loaded source asset, as consumed by the retargeter:
its local position height, its world rotation in the rest pose (what
getWorldQuaternion returns before any animation plays), and its parent
node's world rest rotation when a parent exists. -/
structure RigNode where
  positionY : ℚ
  worldQuat : Quat
  parentWorldQuat : Option Quat
deriving DecidableEq

/-- The loaded FBX asset: its animation clips and its named bone nodes. -/
structure MixamoAsset where
  animations : List Clip
  getObjectByName : String → Option RigNode

/-- A normalized humanoid bone node of the target avatar: its node name and
its world position height. -/
structure VrmNode where
  name : String
  worldPositionY : ℚ
deriving DecidableEq

/-- The target VRM avatar: the humanoid bone resolver and the meta version
tag whose value "0" selects the legacy axis convention. -/
structure VrmModel where
  boneNode : String → Option VrmNode
  metaVersion : Option String

/-- THREE.AnimationClip.findByName over a clip list. -/
def findClipByName (clips : List Clip) (n : String) : Option Clip :=
  clips.find? (fun c => c.name = n)

/-- JavaScript String.split on a single separator character, keeping empty
pieces. -/
def splitOnCharAux (sep : Char) (cur : List Char) : List Char → List (List Char)
  | [] => [cur.reverse]
  | c :: rest =>
    if c = sep then cur.reverse :: splitOnCharAux sep [] rest
    else splitOnCharAux sep (c :: cur) rest

/-- The parts of track.name.split on the dot, as strings. -/
def trackNameParts (name : String) : List String :=
  (splitOnCharAux '.' [] name.data).map (fun l => String.mk l)

/-- The source rig bone identifier of a track: part zero of its name. -/
def trackBoneId (t : Track) : String := (trackNameParts t.trackName).headD ""

/-- The property part of a track name: part one of its name.  A missing
part renders as the string undefined through the template literal. -/
def trackProp (t : Track) : String := (trackNameParts t.trackName).getD 1 "undefined"

/-- The rotation keyframe loop of loadMixamoAnimation, on the flat value
list: each aligned 4-tuple q becomes parent times q times restInverse.
This is the in-place mutation of track.values.  A trailing group shorter
than four values is passed through (well-formed tracks, where the value
count is four times the time count, never have one). -/
def retargetRotValues (p rInv : Quat) : List ℚ → List ℚ
  | x :: y :: z :: w :: rest =>
    let q := quatMul (quatMul p ⟨x, y, z, w⟩) rInv
    q.x :: q.y :: q.z :: q.w :: retargetRotValues p rInv rest
  | [] => []
  | [x] => [x]
  | [x, y] => [x, y]
  | [x, y, z] => [x, y, z]

/-- The axis conversion map for rotation tracks: when the meta version is
"0", negate every value at an even flat index. -/
def legacyRotValues (legacy : Bool) (vs : List ℚ) : List ℚ :=
  jsMapIdx (fun i v => if legacy && i % 2 == 0 then -v else v) 0 vs

/-- The position track map: the axis conversion negates every value whose
flat index is not 1 modulo 3, then everything is scaled by the hips
position scale. -/
def retargetPosValues (legacy : Bool) (scale : ℚ) (vs : List ℚ) : List ℚ :=
  jsMapIdx (fun i v => (if legacy && !(i % 3 == 1) then -v else v) * scale) 0 vs

/-- The per-track body of the clip.tracks.forEach loop of
loadMixamoAnimation.  Returns the emitted output tracks (none when the
bone is unmapped or unresolvable) together with the post-iteration state of
the source track, which for rotation tracks carries the in-place mutation
of its values.  A resolved node without a parent models the TypeError of
the non-null assertion on mixamoRigNode.parent. -/
def processTrack (rigMap : String → Option String) (asset : MixamoAsset)
    (vrm : VrmModel) (scale : ℚ) (t : Track) : Except String (List Track × Track) :=
  match rigMap (trackBoneId t) with
  | none => .ok ([], t)
  | some vrmBoneName =>
    match vrm.boneNode vrmBoneName, asset.getObjectByName (trackBoneId t) with
    | some vn, some node =>
      let restRotationInverse := quatConj node.worldQuat
      match node.parentWorldQuat with
      | none => .error "TypeError: mixamoRigNode.parent is null"
      | some parentRestWorldRotation =>
        let legacy : Bool := vrm.metaVersion == some "0"
        match t with
        | .rotation nm times values =>
          let newValues := retargetRotValues parentRestWorldRotation restRotationInverse values
          .ok ([Track.rotation (vn.name ++ "." ++ trackProp t) times
                  (legacyRotValues legacy newValues)],
               Track.rotation nm times newValues)
        | .position nm times values =>
          .ok ([Track.position (vn.name ++ "." ++ trackProp t) times
                  (retargetPosValues legacy scale values)],
               Track.position nm times values)
    | _, _ => .ok ([], t)

/-- loadMixamoAnimation of lib/loadMixamoAnimation.ts, with the bone
correspondence table passed in as the map the source imports from
lib/mixamoVRMRigMap.  The first component of a successful result is the
returned clip; the second is the post-run state of the source clip's
tracks, recording the in-place mutation of rotation keyframes.  The error
cases model the JavaScript TypeErrors raised by the non-null assertions on
the hips lookups and by dereferencing a missing clip. -/
def loadMixamoAnimationCore (rigMap : String → Option String)
    (asset : MixamoAsset) (vrm : VrmModel) : Except String (Clip × List Track) :=
  match asset.getObjectByName "mixamorigHips" with
  | none => .error "TypeError: cannot read position of undefined"
  | some mHips =>
    match vrm.boneNode "hips" with
    | none => .error "TypeError: cannot read getWorldPosition of null"
    | some vHips =>
      let hipsPositionScale := vHips.worldPositionY / mHips.positionY
      match findClipByName asset.animations "mixamo.com" with
      | none => .error "TypeError: cannot read tracks of null"
      | some clip =>
        match clip.tracks.mapM (processTrack rigMap asset vrm hipsPositionScale) with
        | .error e => .error e
        | .ok results =>
          .ok (⟨"vrmAnimation", clip.duration, (results.map Prod.fst).flatten⟩,
               results.map Prod.snd)

/-- The clip returned to the caller of loadMixamoAnimation. -/
def loadMixamoAnimation (rigMap : String → Option String)
    (asset : MixamoAsset) (vrm : VrmModel) : Except String Clip :=
  (loadMixamoAnimationCore rigMap asset vrm).map Prod.fst

/-- The k-th aligned 4-tuple of a flat value list, missing entries read as
zero. -/
def quatAt : List ℚ → ℕ → Quat
  | vs, 0 => ⟨vs.getD 0 0, vs.getD 1 0, vs.getD 2 0, vs.getD 3 0⟩
  | _ :: _ :: _ :: _ :: rest, k + 1 => quatAt rest k
  | [], _ + 1 => ⟨0, 0, 0, 0⟩
  | [_], _ + 1 => ⟨0, 0, 0, 0⟩
  | [_, _], _ + 1 => ⟨0, 0, 0, 0⟩
  | [_, _, _], _ + 1 => ⟨0, 0, 0, 0⟩

/-- The k-th aligned 3-tuple of a flat value list, missing entries read as
zero. -/
def vec3At : List ℚ → ℕ → ℚ × ℚ × ℚ
  | vs, 0 => (vs.getD 0 0, vs.getD 1 0, vs.getD 2 0)
  | _ :: _ :: _ :: rest, k + 1 => vec3At rest k
  | [], _ + 1 => (0, 0, 0)
  | [_], _ + 1 => (0, 0, 0)
  | [_, _], _ + 1 => (0, 0, 0)

/-- The axis sign flip on a quaternion 4-tuple: negate the first and third
scalar, keep the second and fourth. -/
def legacyQuatFix (legacy : Bool) (q : Quat) : Quat :=
  if legacy then ⟨-q.x, q.y, -q.z, q.w⟩ else q

/-- The axis sign flip and uniform scale on a position 3-tuple. -/
def legacyPosFix (legacy : Bool) (scale : ℚ) (v : ℚ × ℚ × ℚ) : ℚ × ℚ × ℚ :=
  ((if legacy then -v.1 else v.1) * scale, v.2.1 * scale,
   (if legacy then -v.2.2 else v.2.2) * scale)

/-! ## Helper lemmas on indexed maps -/

theorem jsMapIdx_length {α β : Type} (f : ℕ → α → β) :
    ∀ (i : ℕ) (l : List α), (jsMapIdx f i l).length = l.length
  | _, [] => rfl
  | i, a :: l => by simp [jsMapIdx, jsMapIdx_length f (i + 1) l]

theorem jsMapIdx_get {α β : Type} (f : ℕ → α → β) :
    ∀ (l : List α) (j i : ℕ) (h : i < l.length) (h2 : i < (jsMapIdx f j l).length),
      (jsMapIdx f j l).get ⟨i, h2⟩ = f (j + i) (l.get ⟨i, h⟩)
  | a :: l, j, 0, _, _ => by simp [jsMapIdx]
  | a :: l, j, i + 1, h, h2 => by
    have ih := jsMapIdx_get f l (j + 1) i (by simpa using h)
      (by simpa [jsMapIdx] using h2)
    simp only [jsMapIdx, List.get_cons_succ, ih]
    congr 1
    omega
  | [], _, i, h, _ => absurd h (by simp)

theorem jsMapIdx_mem {α β : Type} (f : ℕ → α → β) :
    ∀ (l : List α) (j : ℕ) (b : β), b ∈ jsMapIdx f j l → ∃ i a, a ∈ l ∧ b = f i a
  | [], _, b, h => absurd h (by simp [jsMapIdx])
  | a :: l, j, b, h => by
    rw [jsMapIdx, List.mem_cons] at h
    rcases h with h | h
    · exact ⟨j, a, by simp, h⟩
    · rcases jsMapIdx_mem f l (j + 1) b h with ⟨i, a2, ha, hb⟩
      exact ⟨i, a2, by simp [ha], hb⟩

/-! ## Properties of the phoneme approximator (claim C5) -/

theorem mk_single_ne_pause (c : Char) : String.mk [c] ≠ "pause" := by
  intro h
  have h2 : ([c] : List Char) = "pause".data := congrArg String.data h
  have h3 : ([c] : List Char).length = ("pause".data).length := by rw [h2]
  simp at h3

theorem charPhoneme_ne_pause (c : Char) : charPhoneme c ≠ "pause" := by
  unfold charPhoneme
  split
  · exact mk_single_ne_pause c
  · split
    · exact mk_single_ne_pause c
    · decide

theorem pause_not_mem_wordToPhonemes : ∀ w, "pause" ∉ wordToPhonemes w
  | [] => by simp [wordToPhonemes]
  | [c] => by
    simp only [wordToPhonemes, List.mem_singleton]
    exact fun h => charPhoneme_ne_pause c h.symm
  | c :: c2 :: rest => by
    unfold wordToPhonemes
    split
    · simp only [List.mem_cons, not_or]
      exact ⟨by decide, pause_not_mem_wordToPhonemes rest⟩
    · split
      · simp only [List.mem_cons, not_or]
        exact ⟨by decide, pause_not_mem_wordToPhonemes rest⟩
      · split
        · simp only [List.mem_cons, not_or]
          exact ⟨by decide, pause_not_mem_wordToPhonemes rest⟩
        · split
          · simp only [List.mem_cons, not_or]
            exact ⟨by decide, pause_not_mem_wordToPhonemes rest⟩
          · simp only [List.mem_cons, not_or]
            exact ⟨fun h => charPhoneme_ne_pause c h.symm,
                   pause_not_mem_wordToPhonemes (c2 :: rest)⟩

theorem splitWsGo_ne_nil : ∀ (l : List Char) (b : Bool) (cur : List Char),
    splitWsGo b cur l ≠ []
  | [], _, _ => by simp [splitWsGo]
  | c :: rest, b, cur => by
    unfold splitWsGo
    split
    · split
      · exact splitWsGo_ne_nil rest true []
      · simp
    · exact splitWsGo_ne_nil rest false (c :: cur)

theorem count_pause_in_words : ∀ ws : List (List Char),
    ((ws.map (fun w => wordToPhonemes w ++ ["pause"])).flatten).count "pause" = ws.length
  | [] => rfl
  | w :: ws => by
    rw [List.map_cons, List.flatten_cons, List.count_append, List.count_append,
      count_pause_in_words ws, List.count_eq_zero.mpr (pause_not_mem_wordToPhonemes w)]
    simp
    omega

/-- Claim C5: the phoneme approximator is total and deterministic; for every
input string it splits into whitespace-separated words after case folding
and punctuation stripping, processes each word greedily left to right
(the digraphs ee, oo, ay, ow consume two characters and emit their own
symbol; single vowels and the consonants b p m f v w r emit themselves;
every other character emits the default symbol), and appends exactly one
pause symbol after each word. -/
theorem c5_phoneme_approximator :
    (∀ text : String,
        textToPhonemes text
          = ((splitWhitespace (stripNonWord (text.data.map Char.toLower))).map
              (fun w => wordToPhonemes w ++ ["pause"])).flatten
        ∧ textToPhonemes text ≠ []
        ∧ (textToPhonemes text).count "pause"
            = (splitWhitespace (stripNonWord (text.data.map Char.toLower))).length)
  ∧ (∀ rest, wordToPhonemes ('e' :: 'e' :: rest) = "ee" :: wordToPhonemes rest
        ∧ wordToPhonemes ('o' :: 'o' :: rest) = "oo" :: wordToPhonemes rest
        ∧ wordToPhonemes ('a' :: 'y' :: rest) = "ay" :: wordToPhonemes rest
        ∧ wordToPhonemes ('o' :: 'w' :: rest) = "ow" :: wordToPhonemes rest)
  ∧ (∀ c c2 rest, ¬(c = 'e' ∧ c2 = 'e') → ¬(c = 'o' ∧ c2 = 'o') →
        ¬(c = 'a' ∧ c2 = 'y') → ¬(c = 'o' ∧ c2 = 'w') →
        wordToPhonemes (c :: c2 :: rest) = charPhoneme c :: wordToPhonemes (c2 :: rest))
  ∧ (∀ c, wordToPhonemes [c] = [charPhoneme c])
  ∧ (∀ c, (isVowelChar c = true → charPhoneme c = String.mk [c])
        ∧ (isVowelChar c = false → isShapeConsonant c = true → charPhoneme c = String.mk [c])
        ∧ (isVowelChar c = false → isShapeConsonant c = false → charPhoneme c = "default")) := by
  refine ⟨?_, ?_, ?_, ?_, ?_⟩
  · intro text
    refine ⟨rfl, ?_, count_pause_in_words _⟩
    unfold textToPhonemes
    cases hws : splitWhitespace (stripNonWord (text.data.map Char.toLower)) with
    | nil => exact absurd hws (splitWsGo_ne_nil _ _ _)
    | cons w rest => simp
  · intro rest
    refine ⟨?_, ?_, ?_, ?_⟩ <;> simp [wordToPhonemes]
  · intro c c2 rest h1 h2 h3 h4
    have b1 : (c = 'e' && c2 = 'e') = false := by
      simp only [Bool.and_eq_false_iff, decide_eq_false_iff_not]
      by_cases hc : c = 'e'
      · exact Or.inr (fun hc2 => h1 ⟨hc, hc2⟩)
      · exact Or.inl hc
    have b2 : (c = 'o' && c2 = 'o') = false := by
      simp only [Bool.and_eq_false_iff, decide_eq_false_iff_not]
      by_cases hc : c = 'o'
      · exact Or.inr (fun hc2 => h2 ⟨hc, hc2⟩)
      · exact Or.inl hc
    have b3 : (c = 'a' && c2 = 'y') = false := by
      simp only [Bool.and_eq_false_iff, decide_eq_false_iff_not]
      by_cases hc : c = 'a'
      · exact Or.inr (fun hc2 => h3 ⟨hc, hc2⟩)
      · exact Or.inl hc
    have b4 : (c = 'o' && c2 = 'w') = false := by
      simp only [Bool.and_eq_false_iff, decide_eq_false_iff_not]
      by_cases hc : c = 'o'
      · exact Or.inr (fun hc2 => h4 ⟨hc, hc2⟩)
      · exact Or.inl hc
    simp [wordToPhonemes, b1, b2, b3, b4]
  · intro c
    rfl
  · intro c
    refine ⟨?_, ?_, ?_⟩
    · intro hv
      simp [charPhoneme, hv]
    · intro hv hc
      simp [charPhoneme, hv, hc]
    · intro hv hc
      simp [charPhoneme, hv, hc]

/-- Witness for C5 at concrete inputs: the word hi yields the default symbol
followed by the vowel i, and the text hi bob contains exactly two pause
symbols, one per word. -/
theorem c5_phoneme_approximator_witness :
    wordToPhonemes ['h', 'i'] = charPhoneme 'h' :: wordToPhonemes ['i']
  ∧ (textToPhonemes "hi bob").count "pause"
      = (splitWhitespace (stripNonWord ("hi bob".data.map Char.toLower))).length
  ∧ textToPhonemes "hi bob" ≠ [] :=
  ⟨c5_phoneme_approximator.2.2.1 'h' 'i' []
      (by decide) (by decide) (by decide) (by decide),
   (c5_phoneme_approximator.1 "hi bob").2.2,
   (c5_phoneme_approximator.1 "hi bob").2.1⟩

/-! ## Properties of the viseme timeline builder (claim C6) -/

/-- Claim C6: the timeline builder outputs exactly one frame per input
phoneme in input order; the i-th frame carries timestamp i times the
uniform slice duration over count, so for a nonnegative duration the
timestamps are non-decreasing and the first is zero; the pause symbol maps
to the all-zero weight vector, and a symbol absent from the table maps to
the default entry (which the table stores under the default key). -/
theorem c6_viseme_timeline (phonemes : List String) (duration : ℚ)
    (hd : 0 ≤ duration) :
    (buildFrames phonemes duration).length = phonemes.length
  ∧ (∀ i (h : i < phonemes.length) (h2 : i < (buildFrames phonemes duration).length),
      ((buildFrames phonemes duration).get ⟨i, h2⟩).1
          = (i : ℚ) * (duration / (phonemes.length : ℚ))
      ∧ ((buildFrames phonemes duration).get ⟨i, h2⟩).2
          = visemeForPhoneme (phonemes.get ⟨i, h⟩))
  ∧ (∀ i j (hi : i < (buildFrames phonemes duration).length)
        (hj : j < (buildFrames phonemes duration).length), i ≤ j →
      ((buildFrames phonemes duration).get ⟨i, hi⟩).1
        ≤ ((buildFrames phonemes duration).get ⟨j, hj⟩).1)
  ∧ (∀ h0 : 0 < (buildFrames phonemes duration).length,
      ((buildFrames phonemes duration).get ⟨0, h0⟩).1 = 0)
  ∧ visemeForPhoneme "pause" = zeroViseme
  ∧ (∀ p, p ≠ "pause" → PHONEME_MAP p = none → visemeForPhoneme p = defaultViseme)
  ∧ PHONEME_MAP "default" = some defaultViseme := by
  have hlen : (buildFrames phonemes duration).length = phonemes.length :=
    jsMapIdx_length _ 0 phonemes
  have hget : ∀ i (h : i < phonemes.length) (h2 : i < (buildFrames phonemes duration).length),
      (buildFrames phonemes duration).get ⟨i, h2⟩
        = ((i : ℚ) * (duration / (phonemes.length : ℚ)),
           visemeForPhoneme (phonemes.get ⟨i, h⟩)) := by
    intro i h h2
    have := jsMapIdx_get
      (fun i p => ((i : ℚ) * (duration / (phonemes.length : ℚ)), visemeForPhoneme p))
      phonemes 0 i h (by simpa [buildFrames] using h2)
    simpa [buildFrames] using this
  have hslice : 0 ≤ duration / (phonemes.length : ℚ) :=
    div_nonneg hd (by positivity)
  refine ⟨hlen, ?_, ?_, ?_, rfl, ?_, rfl⟩
  · intro i h h2
    rw [hget i h h2]
    exact ⟨rfl, rfl⟩
  · intro i j hi hj hij
    have hi2 : i < phonemes.length := by omega
    have hj2 : j < phonemes.length := by omega
    rw [hget i hi2 hi, hget j hj2 hj]
    exact mul_le_mul_of_nonneg_right (by exact_mod_cast hij) hslice
  · intro h0
    have h02 : 0 < phonemes.length := by omega
    rw [hget 0 h02 h0]
    simp
  · intro p hp hmap
    simp [visemeForPhoneme, hp, hmap]

/-- Witness for C6 at a concrete input: three phonemes over three seconds
give three frames, the first at time zero and the pause frame carrying the
all-zero weight vector. -/
theorem c6_viseme_timeline_witness :
    (0:ℚ) ≤ 3
  ∧ (buildFrames ["a", "zz", "pause"] 3).length = ["a", "zz", "pause"].length
  ∧ visemeForPhoneme "pause" = zeroViseme
  ∧ (∀ h0 : 0 < (buildFrames ["a", "zz", "pause"] 3).length,
      ((buildFrames ["a", "zz", "pause"] 3).get ⟨0, h0⟩).1 = 0) :=
  ⟨by norm_num,
   (c6_viseme_timeline ["a", "zz", "pause"] 3 (by norm_num)).1,
   (c6_viseme_timeline ["a", "zz", "pause"] 3 (by norm_num)).2.2.2.2.1,
   (c6_viseme_timeline ["a", "zz", "pause"] 3 (by norm_num)).2.2.2.1⟩

/-! ## Empty and whitespace-only text (claim C7) -/

/-- Counterexample to claim C7 as stated: the empty string does not yield
zero phonemes — the whitespace split of the empty string produces one empty
word, so textToPhonemes emits one pause symbol and the timeline has one
frame, not zero. -/
theorem c7_empty_text_counterexample :
    textToPhonemes "" = ["pause"]
  ∧ textToPhonemes "" ≠ []
  ∧ (generateLipSyncData "" 3).length = 1 := by
  refine ⟨rfl, ?_, rfl⟩
  rw [show textToPhonemes "" = ["pause"] from rfl]
  simp

theorem toLower_ws_eq_self (c : Char) (h : isWsChar c = true) : c.toLower = c := by
  simp only [isWsChar, Bool.or_eq_true, decide_eq_true_eq] at h
  rcases h with ((((h | h) | h) | h) | h) | h <;> subst h <;> decide

theorem splitWsGo_all_ws : ∀ (l : List Char) (b : Bool),
    (∀ c ∈ l, isWsChar c = true) → ∀ w ∈ splitWsGo b [] l, w = []
  | [], _, _, w, hw => by
    simp only [splitWsGo, List.mem_singleton] at hw
    simpa using hw
  | c :: rest, b, h, w, hw => by
    have hc : isWsChar c = true := h c (by simp)
    have hrest : ∀ c2 ∈ rest, isWsChar c2 = true := fun c2 hc2 => h c2 (by simp [hc2])
    rw [splitWsGo] at hw
    rw [hc] at hw
    simp only [if_true] at hw
    cases b with
    | true =>
      simp only [if_true] at hw
      exact splitWsGo_all_ws rest true hrest w hw
    | false =>
      simp only [Bool.false_eq_true, if_false, List.reverse_nil, List.mem_cons] at hw
      rcases hw with hw | hw
      · exact hw
      · exact splitWsGo_all_ws rest true hrest w hw

/-- Claim C7 amended: empty or whitespace-only text does not give an empty
timeline; instead every produced phoneme is the pause symbol and every
frame of the resulting timeline carries the all-zero mouth weights, so
playback shows no mouth motion and no error is raised. -/
theorem c7_whitespace_amended (text : String) (d : ℚ)
    (hws : ∀ c ∈ text.data, isWsChar c = true) :
    (∀ p ∈ textToPhonemes text, p = "pause")
  ∧ (∀ fr ∈ generateLipSyncData text d, fr.2 = zeroViseme)
  ∧ textToPhonemes text ≠ [] := by
  have hstrip : ∀ c ∈ stripNonWord (text.data.map Char.toLower), isWsChar c = true := by
    intro c hc
    rw [stripNonWord, List.mem_filter] at hc
    rcases List.mem_map.mp hc.1 with ⟨c0, hc0, hlow⟩
    have hw0 : isWsChar c0 = true := hws c0 hc0
    rw [← hlow, toLower_ws_eq_self c0 hw0]
    exact hw0
  have hwords : ∀ w ∈ splitWhitespace (stripNonWord (text.data.map Char.toLower)), w = [] :=
    splitWsGo_all_ws _ false hstrip
  have hph : ∀ p ∈ textToPhonemes text, p = "pause" := by
    intro p hp
    rw [textToPhonemes, List.mem_flatten] at hp
    rcases hp with ⟨piece, hpiece, hpin⟩
    rcases List.mem_map.mp hpiece with ⟨w, hw, hwp⟩
    rw [hwords w hw] at hwp
    rw [← hwp] at hpin
    simpa [wordToPhonemes] using hpin
  refine ⟨hph, ?_, ?_⟩
  · intro fr hfr
    rw [generateLipSyncData, buildFrames] at hfr
    rcases jsMapIdx_mem _ _ _ _ hfr with ⟨i, p, hpmem, hfr2⟩
    rw [hfr2]
    simp [hph p hpmem, visemeForPhoneme]
  · rw [textToPhonemes]
    cases hsp : splitWhitespace (stripNonWord (text.data.map Char.toLower)) with
    | nil => exact absurd hsp (splitWsGo_ne_nil _ _ _)
    | cons w rest => simp

/-- Witness for the amended C7 at a concrete whitespace-only input. -/
theorem c7_whitespace_amended_witness :
    (∀ p ∈ textToPhonemes "  ", p = "pause")
  ∧ (∀ fr ∈ generateLipSyncData "  " 3, fr.2 = zeroViseme)
  ∧ textToPhonemes "  " ≠ [] :=
  c7_whitespace_amended "  " 3 (by decide)

/-! ## Cursor monotonicity of the lip-sync scheduler (claim C10) -/

theorem updateLipSyncAdvance_ge (frames : List (ℚ × Viseme)) (elapsed : ℚ)
    (idx : ℕ) : idx ≤ updateLipSyncAdvance frames elapsed idx := by
  unfold updateLipSyncAdvance
  split
  next h =>
    have h1 := h.1
    exact Nat.le_trans (Nat.le_succ idx) (updateLipSyncAdvance_ge frames elapsed (idx + 1))
  next h => exact Nat.le_refl idx
termination_by frames.length - idx
decreasing_by omega

theorem updateLipSyncAdvance_spec (frames : List (ℚ × Viseme)) (elapsed : ℚ)
    (idx : ℕ) :
    (updateLipSyncAdvance frames elapsed idx < frames.length - 1 →
      elapsed < (frames.getD (updateLipSyncAdvance frames elapsed idx + 1) (0, zeroViseme)).1)
  ∧ (∀ k, idx < k → k ≤ updateLipSyncAdvance frames elapsed idx →
      (frames.getD k (0, zeroViseme)).1 ≤ elapsed) := by
  rw [updateLipSyncAdvance]
  split
  next h =>
    have ih := updateLipSyncAdvance_spec frames elapsed (idx + 1)
    refine ⟨ih.1, ?_⟩
    intro k hk1 hk2
    by_cases hk : k = idx + 1
    · rw [hk]
      exact h.2
    · exact ih.2 k (by omega) hk2
  next h =>
    constructor
    · intro hlt
      by_contra hc
      push_neg at hc
      exact h ⟨hlt, hc⟩
    · intro k hk1 hk2
      omega
termination_by frames.length - idx
decreasing_by omega

/-- Claim C10: within one playback session the cursor is monotonic — each
tick of the scheduling loop never moves the active-frame index backward; it
advances exactly while the next frame's timestamp is at most the elapsed
time, and stops as soon as the next timestamp (when one exists) lies
strictly beyond the elapsed time.  In particular the index is
non-decreasing across consecutive ticks. -/
theorem c10_cursor_monotonic (frames : List (ℚ × Viseme)) (elapsed : ℚ) (idx : ℕ) :
    idx ≤ updateLipSyncAdvance frames elapsed idx
  ∧ (updateLipSyncAdvance frames elapsed idx < frames.length - 1 →
      elapsed < (frames.getD (updateLipSyncAdvance frames elapsed idx + 1) (0, zeroViseme)).1)
  ∧ (∀ k, idx < k → k ≤ updateLipSyncAdvance frames elapsed idx →
      (frames.getD k (0, zeroViseme)).1 ≤ elapsed)
  ∧ (∀ e2 : ℚ, updateLipSyncAdvance frames elapsed idx
      ≤ updateLipSyncAdvance frames e2 (updateLipSyncAdvance frames elapsed idx)) :=
  ⟨updateLipSyncAdvance_ge frames elapsed idx,
   (updateLipSyncAdvance_spec frames elapsed idx).1,
   (updateLipSyncAdvance_spec frames elapsed idx).2,
   fun e2 => updateLipSyncAdvance_ge frames e2 _⟩

/-- Concrete three-frame timeline used to exercise the scheduler lemmas. -/
def sampleFrames : List (ℚ × Viseme) := [(0, zeroViseme), (1, zeroViseme), (2, zeroViseme)]

/-- Witness for C10 at a concrete input: from index zero with elapsed time
three halves, the cursor lands on frame one, never moves backward, and the
frame it passed has a timestamp within the elapsed time. -/
theorem c10_cursor_monotonic_witness :
    0 ≤ updateLipSyncAdvance sampleFrames (3/2) 0
  ∧ (sampleFrames.getD 1 (0, zeroViseme)).1 ≤ 3/2 := by
  have hadv : updateLipSyncAdvance sampleFrames (3/2) 0 = 1 := by
    rw [updateLipSyncAdvance,
      dif_pos (by refine ⟨by norm_num [sampleFrames], ?_⟩; norm_num [sampleFrames])]
    rw [updateLipSyncAdvance, dif_neg ?_]
    intro hc
    have := hc.2
    norm_num [sampleFrames] at this
  refine ⟨(c10_cursor_monotonic sampleFrames (3/2) 0).1, ?_⟩
  exact (c10_cursor_monotonic sampleFrames (3/2) 0).2.2.1 1 (by omega) (by omega)

/-! ## End and pause handling of lip-sync playback (claim C8) -/

/-- A viewer state whose aa mouth weight is open, used to exhibit that the
pause handler does not reset it. -/
def openMouthState : ViewerState := ⟨fun n => if n = "aa" then 1 else 0, []⟩

/-- Counterexample to claim C8 as stated: the pause handler emits no calls
at all, so pausing leaves the mouth weights exactly as they were — it does
not force the four mouth-shape weights to zero.  Here the aa weight is one
before the pause and still one after it. -/
theorem c8_pause_counterexample :
    onPauseCalls = []
  ∧ runControlCalls true ["aa", "ih", "ou", "ee"] openMouthState onPauseCalls
      = .ok openMouthState
  ∧ openMouthState.weights "aa" = 1
  ∧ openMouthState.weights "aa" ≠ 0 := by
  refine ⟨rfl, rfl, rfl, by norm_num [openMouthState]⟩

/-- Claim C8 amended: on playback end the scheduler stops (the pending
frame is cancelled and no tick reschedules while ended) and the four mouth
weights are forced to zero with every other expression weight unchanged
(an idle body animation is also requested); on pause the scheduler stops
but the mouth weights are left untouched. -/
theorem c8_end_pause_amended (avail : List String) (w : String → ℚ)
    (reqs : List String) (ha : "aa" ∈ avail) (hi : "ih" ∈ avail)
    (ho : "ou" ∈ avail) (he : "ee" ∈ avail) :
    (∃ st2, runControlCalls true avail ⟨w, reqs⟩ onEndedCalls = .ok st2
      ∧ st2.weights "aa" = 0 ∧ st2.weights "ih" = 0
      ∧ st2.weights "ou" = 0 ∧ st2.weights "ee" = 0
      ∧ (∀ n, n ≠ "aa" → n ≠ "ih" → n ≠ "ou" → n ≠ "ee" → st2.weights n = w n)
      ∧ st2.animationRequests = reqs ++ ["/animations/idle.fbx"])
  ∧ runControlCalls true avail ⟨w, reqs⟩ onPauseCalls = .ok ⟨w, reqs⟩
  ∧ onEndedCancelsFrame = true ∧ onPauseCancelsFrame = true
  ∧ (∀ ended, lipSyncReschedules true ended = false)
  ∧ (∀ paused, lipSyncReschedules paused true = false) := by
  refine ⟨?_, rfl, rfl, rfl, fun e => rfl, fun p => by simp [lipSyncReschedules]⟩
  refine ⟨⟨setExpressionValue (setExpressionValue (setExpressionValue
      (setExpressionValue w "aa" 0) "ih" 0) "ou" 0) "ee" 0,
      reqs ++ ["/animations/idle.fbx"]⟩, ?_, ?_, ?_, ?_, ?_, ?_, rfl⟩
  · simp [runControlCalls, onEndedCalls, handleAnimationControl, List.foldlM,
      ha, hi, ho, he]
    rfl
  · simp [setExpressionValue]
  · simp [setExpressionValue]
  · simp [setExpressionValue]
  · simp [setExpressionValue]
  · intro n h1 h2 h3 h4
    simp [setExpressionValue, h1, h2, h3, h4]

/-- Witness for the amended C8 at a concrete state: with all four mouth
expressions available and every weight at one, pausing changes nothing and
ending zeroes the aa weight. -/
theorem c8_end_pause_amended_witness :
    runControlCalls true ["aa", "ih", "ou", "ee"] ⟨fun _ => 1, []⟩ onPauseCalls
      = .ok ⟨fun _ => 1, []⟩
  ∧ ∃ st2, runControlCalls true ["aa", "ih", "ou", "ee"] ⟨fun _ => 1, []⟩ onEndedCalls
      = .ok st2 ∧ st2.weights "aa" = 0 := by
  have h := c8_end_pause_amended ["aa", "ih", "ou", "ee"] (fun _ => 1) []
    (by decide) (by decide) (by decide) (by decide)
  obtain ⟨⟨st2, h1, h2, _⟩, hp, _⟩ := h
  exact ⟨hp, st2, h1, h2⟩

/-! ## Crossfade requests (claim C9) -/

/-- Counterexample to claim C9 as stated: requesting the same animation
twice in a row is not a no-op.  The second request creates a fresh action
from the freshly loaded clip and starts a 0.5 second crossfade from the
playing action to it — the command list is not empty and contains a
crossfade command. -/
theorem c9_same_action_counterexample :
    (requestAnimation (requestAnimation ⟨none, 0⟩ "/animations/idle.fbx").1
        "/animations/idle.fbx").2
      = [ActionCmd.reset 1, ActionCmd.crossFade 0 1 (1/2), ActionCmd.play 1]
  ∧ (requestAnimation (requestAnimation ⟨none, 0⟩ "/animations/idle.fbx").1
        "/animations/idle.fbx").2 ≠ []
  ∧ ActionCmd.crossFade 0 1 (1/2)
      ∈ (requestAnimation (requestAnimation ⟨none, 0⟩ "/animations/idle.fbx").1
          "/animations/idle.fbx").2 := by
  have hval : (requestAnimation (requestAnimation ⟨none, 0⟩
      "/animations/idle.fbx").1 "/animations/idle.fbx").2
      = [ActionCmd.reset 1, ActionCmd.crossFade 0 1 (1/2), ActionCmd.play 1] := rfl
  refine ⟨hval, by rw [hval]; simp, by rw [hval]; simp⟩

/-- Claim C9 amended: the crossfade path has no identity check.  Whenever
an action is playing, any request — for a different or for the same
animation — resets a fresh action, starts a fixed 0.5 second crossfade from
the current action to it, and makes it current; only from the empty state
does the action play directly without a crossfade. -/
theorem c9_crossfade_amended (cur nextId : ℕ) (url : String) :
    requestAnimation ⟨some cur, nextId⟩ url
      = (⟨some nextId, nextId + 1⟩,
         [ActionCmd.reset nextId, ActionCmd.crossFade cur nextId (1/2),
          ActionCmd.play nextId])
  ∧ requestAnimation ⟨none, nextId⟩ url
      = (⟨some nextId, nextId + 1⟩, [ActionCmd.reset nextId, ActionCmd.play nextId])
  ∧ ActionCmd.crossFade cur nextId (1/2) ∈ (requestAnimation ⟨some cur, nextId⟩ url).2
  ∧ (∀ d : ℚ, ∀ a b : ℕ,
      ActionCmd.crossFade a b d ∈ (requestAnimation ⟨some cur, nextId⟩ url).2 →
      d = 1/2) := by
  refine ⟨rfl, rfl, by simp [requestAnimation], ?_⟩
  intro d a b hmem
  simp [requestAnimation] at hmem
  rw [hmem.2.2]
  norm_num

/-- Witness for the amended C9 at concrete values: with action 7 playing and
the next fresh action id 8, any request emits exactly the fixed half-second
crossfade. -/
theorem c9_crossfade_amended_witness :
    requestAnimation ⟨some 7, 8⟩ "/animations/wave.fbx"
      = (⟨some 8, 9⟩,
         [ActionCmd.reset 8, ActionCmd.crossFade 7 8 (1/2), ActionCmd.play 8])
  ∧ ActionCmd.crossFade 7 8 (1/2)
      ∈ (requestAnimation ⟨some 7, 8⟩ "/animations/wave.fbx").2 :=
  ⟨(c9_crossfade_amended 7 8 "/animations/wave.fbx").1,
   (c9_crossfade_amended 7 8 "/animations/wave.fbx").2.2.1⟩

/-! ## Helper lemmas for the retargeter (claims C1 to C4) -/

theorem retargetRotValues_length (p r : Quat) :
    ∀ vs : List ℚ, (retargetRotValues p r vs).length = vs.length
  | [] => rfl
  | [_] => rfl
  | [_, _] => rfl
  | [_, _, _] => rfl
  | x :: y :: z :: w :: rest => by
    simp [retargetRotValues, retargetRotValues_length p r rest]

theorem quatAt_retargetRotValues (p r : Quat) :
    ∀ (vs : List ℚ) (k : ℕ), 4 * k + 3 < vs.length →
      quatAt (retargetRotValues p r vs) k = quatMul (quatMul p (quatAt vs k)) r
  | x :: y :: z :: w :: rest, 0, _ => by
    simp [retargetRotValues, quatAt]
  | x :: y :: z :: w :: rest, k + 1, h => by
    have h2 : 4 * k + 3 < rest.length := by
      simp only [List.length_cons] at h
      omega
    simpa [retargetRotValues, quatAt] using quatAt_retargetRotValues p r rest k h2
  | [], k, h => by simp at h
  | [_], k, h => by simp at h <;> omega
  | [_, _], k, h => by simp at h <;> omega
  | [_, _, _], k, h => by simp at h <;> omega


theorem quatAt_legacyMap (leg : Bool) :
    ∀ (vs : List ℚ) (i k : ℕ), i % 2 = 0 →
      quatAt (jsMapIdx (fun j v => if leg && j % 2 == 0 then -v else v) i vs) k
        = legacyQuatFix leg (quatAt vs k)
  | [], i, k, _ => by
    cases k <;> cases leg <;> simp [jsMapIdx, quatAt, legacyQuatFix]
  | [a], i, k, h => by
    have e0 : (i % 2 == 0) = true := by simp [h]
    cases k <;> cases leg <;> simp [jsMapIdx, quatAt, legacyQuatFix, e0]
  | [a, b], i, k, h => by
    have e0 : (i % 2 == 0) = true := by simp [h]
    have e1 : ((i + 1) % 2 == 0) = false := by
      simp only [beq_eq_false_iff_ne]
      omega
    cases k <;> cases leg <;> simp [jsMapIdx, quatAt, legacyQuatFix, e0, e1]
  | [a, b, c], i, k, h => by
    have e0 : (i % 2 == 0) = true := by simp [h]
    have e1 : ((i + 1) % 2 == 0) = false := by
      simp only [beq_eq_false_iff_ne]
      omega
    have e2 : ((i + 2) % 2 == 0) = true := by
      simp only [beq_iff_eq]
      omega
    cases k <;> cases leg <;> simp [jsMapIdx, quatAt, legacyQuatFix, e0, e1, e2]
  | a :: b :: c :: d :: rest, i, 0, h => by
    have e0 : (i % 2 == 0) = true := by simp [h]
    have e1 : ((i + 1) % 2 == 0) = false := by
      simp only [beq_eq_false_iff_ne]
      omega
    have e2 : ((i + 2) % 2 == 0) = true := by
      simp only [beq_iff_eq]
      omega
    have e3 : ((i + 3) % 2 == 0) = false := by
      simp only [beq_eq_false_iff_ne]
      omega
    cases leg <;> simp [jsMapIdx, quatAt, legacyQuatFix, e0, e1, e2, e3]
  | a :: b :: c :: d :: rest, i, k + 1, h => by
    have ih := quatAt_legacyMap leg rest (i + 4) k (by omega)
    simpa [jsMapIdx, quatAt] using ih

theorem vec3At_posMap (leg : Bool) (scale : ℚ) :
    ∀ (vs : List ℚ) (i k : ℕ), i % 3 = 0 →
      vec3At (jsMapIdx (fun j v => (if leg && !(j % 3 == 1) then -v else v) * scale) i vs) k
        = legacyPosFix leg scale (vec3At vs k)
  | [], i, k, _ => by
    cases k <;> cases leg <;> simp [jsMapIdx, vec3At, legacyPosFix]
  | [a], i, k, h => by
    have e0 : (i % 3 == 1) = false := by
      simp only [beq_eq_false_iff_ne]
      omega
    cases k <;> cases leg <;> simp [jsMapIdx, vec3At, legacyPosFix, e0]
  | [a, b], i, k, h => by
    have e0 : (i % 3 == 1) = false := by
      simp only [beq_eq_false_iff_ne]
      omega
    have e1 : ((i + 1) % 3 == 1) = true := by
      simp only [beq_iff_eq]
      omega
    cases k <;> cases leg <;> simp [jsMapIdx, vec3At, legacyPosFix, e0, e1]
  | a :: b :: c :: rest, i, 0, h => by
    have e0 : (i % 3 == 1) = false := by
      simp only [beq_eq_false_iff_ne]
      omega
    have e1 : ((i + 1) % 3 == 1) = true := by
      simp only [beq_iff_eq]
      omega
    have e2 : ((i + 2) % 3 == 1) = false := by
      simp only [beq_eq_false_iff_ne]
      omega
    cases leg <;> simp [jsMapIdx, vec3At, legacyPosFix, e0, e1, e2]
  | a :: b :: c :: rest, i, k + 1, h => by
    have ih := vec3At_posMap leg scale rest (i + 3) k (by omega)
    simpa [jsMapIdx, vec3At] using ih

/-! ## Rotation retargeting (claim C1) -/

/-- Claim C1: for every rotation keyframe of a source track whose bone the
correspondence table resolves (and whose nodes resolve, with a parent),
the emitted 4-tuple is parentRestWorldRotation times the input quaternion
times the inverse of the bone rest rotation — both rest quaternions fixed
per track, taken from the rest pose, the same for every keyframe — and
under the legacy axis convention (meta version "0") the first and third
scalar of every 4-tuple are additionally negated while the second and
fourth are unchanged. -/
theorem c1_rotation_retarget (rigMap : String → Option String)
    (asset : MixamoAsset) (vrm : VrmModel) (scale : ℚ) (nm : String)
    (times values : List ℚ) (b : String) (vn : VrmNode) (node : RigNode) (p : Quat)
    (hb : rigMap (trackBoneId (Track.rotation nm times values)) = some b)
    (hvn : vrm.boneNode b = some vn)
    (hnode : asset.getObjectByName (trackBoneId (Track.rotation nm times values)) = some node)
    (hp : node.parentWorldQuat = some p)
    (hlen : values.length = 4 * times.length) :
    ∃ outValues,
      processTrack rigMap asset vrm scale (Track.rotation nm times values)
        = .ok ([Track.rotation
                  (vn.name ++ "." ++ trackProp (Track.rotation nm times values))
                  times outValues],
               Track.rotation nm times
                 (retargetRotValues p (quatConj node.worldQuat) values))
      ∧ ∀ k, k < times.length →
          quatAt outValues k
            = legacyQuatFix (vrm.metaVersion == some "0")
                (quatMul (quatMul p (quatAt values k)) (quatConj node.worldQuat)) := by
  refine ⟨legacyRotValues (vrm.metaVersion == some "0")
      (retargetRotValues p (quatConj node.worldQuat) values), ?_, ?_⟩
  · simp only [processTrack, hb, hvn, hnode, hp]
  · intro k hk
    rw [legacyRotValues,
      quatAt_legacyMap (vrm.metaVersion == some "0")
        (retargetRotValues p (quatConj node.worldQuat) values) 0 k rfl,
      quatAt_retargetRotValues p (quatConj node.worldQuat) values k (by omega)]

/-- Concrete bone correspondence table used by the retargeter witnesses:
the hips entry of the table the source imports. -/
def hipsRigMap : String → Option String :=
  fun n => if n = "mixamorigHips" then some "hips" else none

/-- Concrete source asset for the retargeter witnesses: one clip named
mixamo.com with one hips rotation keyframe, a hips node at rest height one
whose rest rotation is the identity and whose parent rest rotation is the
pure x quaternion. -/
def sampleAsset : MixamoAsset :=
  ⟨[⟨"mixamo.com", 1, [Track.rotation "mixamorigHips.quaternion" [0] [0, 0, 0, 1]]⟩],
   fun n => if n = "mixamorigHips" then some ⟨1, ⟨0, 0, 0, 1⟩, some ⟨1, 0, 0, 0⟩⟩ else none⟩

/-- Concrete target avatar for the retargeter witnesses: a hips node named
Hips at world height one, meta version not the legacy value. -/
def sampleVrm : VrmModel :=
  ⟨fun n => if n = "hips" then some ⟨"Hips", 1⟩ else none, none⟩

/-- Witness for C1 at a concrete track: the identity input keyframe is
mapped to the parent rest rotation. -/
theorem c1_rotation_retarget_witness :
    ∃ outValues,
      processTrack hipsRigMap sampleAsset sampleVrm 1
          (Track.rotation "mixamorigHips.quaternion" [0] [0, 0, 0, 1])
        = .ok ([Track.rotation
                  (String.append "Hips" (String.append "."
                    (trackProp (Track.rotation "mixamorigHips.quaternion" [0] [0, 0, 0, 1]))))
                  [0] outValues],
               Track.rotation "mixamorigHips.quaternion" [0]
                 (retargetRotValues ⟨1, 0, 0, 0⟩ (quatConj ⟨0, 0, 0, 1⟩) [0, 0, 0, 1]))
      ∧ ∀ k, k < ([(0:ℚ)]).length →
          quatAt outValues k
            = legacyQuatFix (sampleVrm.metaVersion == some "0")
                (quatMul (quatMul ⟨1, 0, 0, 0⟩ (quatAt [0, 0, 0, 1] k))
                  (quatConj ⟨0, 0, 0, 1⟩)) :=
  c1_rotation_retarget hipsRigMap sampleAsset sampleVrm 1
    "mixamorigHips.quaternion" [0] [0, 0, 0, 1] "hips" ⟨"Hips", 1⟩
    ⟨1, ⟨0, 0, 0, 1⟩, some ⟨1, 0, 0, 0⟩⟩ ⟨1, 0, 0, 0⟩
    rfl rfl rfl rfl rfl

/-! ## Position retargeting and the hips scale (claim C2) -/

/-- Claim C2: every emitted position 3-tuple is the input with first and
third component negated under the legacy axis convention (unchanged
otherwise), then all three components multiplied by the one scale the
retarget computes; and that scale is computed once per retarget — the
target hips world height divided by the source hips rest height — and
passed unchanged to the processing of every track of the clip. -/
theorem c2_position_scale :
    (∀ (rigMap : String → Option String) (asset : MixamoAsset) (vrm : VrmModel)
        (scale : ℚ) (nm : String) (times values : List ℚ) (b : String)
        (vn : VrmNode) (node : RigNode) (p : Quat),
      rigMap (trackBoneId (Track.position nm times values)) = some b →
      vrm.boneNode b = some vn →
      asset.getObjectByName (trackBoneId (Track.position nm times values)) = some node →
      node.parentWorldQuat = some p →
      ∃ outValues,
        processTrack rigMap asset vrm scale (Track.position nm times values)
          = .ok ([Track.position
                    (vn.name ++ "." ++ trackProp (Track.position nm times values))
                    times outValues],
                 Track.position nm times values)
        ∧ ∀ k, vec3At outValues k
              = legacyPosFix (vrm.metaVersion == some "0") scale (vec3At values k))
  ∧ (∀ (rigMap : String → Option String) (asset : MixamoAsset) (vrm : VrmModel)
        (mHips : RigNode) (vHips : VrmNode) (clip : Clip),
      asset.getObjectByName "mixamorigHips" = some mHips →
      vrm.boneNode "hips" = some vHips →
      findClipByName asset.animations "mixamo.com" = some clip →
      loadMixamoAnimationCore rigMap asset vrm
        = match clip.tracks.mapM
            (processTrack rigMap asset vrm (vHips.worldPositionY / mHips.positionY)) with
          | .error e => .error e
          | .ok results =>
            .ok (⟨"vrmAnimation", clip.duration, (results.map Prod.fst).flatten⟩,
                 results.map Prod.snd)) := by
  constructor
  · intro rigMap asset vrm scale nm times values b vn node p hb hvn hnode hp
    refine ⟨retargetPosValues (vrm.metaVersion == some "0") scale values, ?_, ?_⟩
    · simp only [processTrack, hb, hvn, hnode, hp]
    · intro k
      rw [retargetPosValues,
        vec3At_posMap (vrm.metaVersion == some "0") scale values 0 k rfl]
  · intro rigMap asset vrm mHips vHips clip h1 h2 h3
    simp only [loadMixamoAnimationCore, h1, h2, h3]

/-- Witness for C2 at a concrete track and a concrete retarget: a position
keyframe is scaled uniformly, and the whole sample clip is processed with
the single hips scale. -/
theorem c2_position_scale_witness :
    (∃ outValues,
      processTrack hipsRigMap sampleAsset sampleVrm (1/2)
          (Track.position "mixamorigHips.position" [0] [2, 4, 6])
        = .ok ([Track.position
                  (String.append "Hips" (String.append "."
                    (trackProp (Track.position "mixamorigHips.position" [0] [2, 4, 6]))))
                  [0] outValues],
               Track.position "mixamorigHips.position" [0] [2, 4, 6])
      ∧ ∀ k, vec3At outValues k
            = legacyPosFix (sampleVrm.metaVersion == some "0") (1/2) (vec3At [2, 4, 6] k))
  ∧ loadMixamoAnimationCore hipsRigMap sampleAsset sampleVrm
      = match (Clip.mk "mixamo.com" 1
            [Track.rotation "mixamorigHips.quaternion" [0] [0, 0, 0, 1]]).tracks.mapM
            (processTrack hipsRigMap sampleAsset sampleVrm
              ((VrmNode.mk "Hips" 1).worldPositionY / (RigNode.mk 1 ⟨0, 0, 0, 1⟩
                (some ⟨1, 0, 0, 0⟩)).positionY)) with
        | .error e => .error e
        | .ok results =>
          .ok (⟨"vrmAnimation",
                (Clip.mk "mixamo.com" 1
                  [Track.rotation "mixamorigHips.quaternion" [0] [0, 0, 0, 1]]).duration,
                (results.map Prod.fst).flatten⟩,
               results.map Prod.snd) :=
  ⟨c2_position_scale.1 hipsRigMap sampleAsset sampleVrm (1/2)
      "mixamorigHips.position" [0] [2, 4, 6] "hips" ⟨"Hips", 1⟩
      ⟨1, ⟨0, 0, 0, 1⟩, some ⟨1, 0, 0, 0⟩⟩ ⟨1, 0, 0, 0⟩ rfl rfl rfl rfl,
   c2_position_scale.2 hipsRigMap sampleAsset sampleVrm
      ⟨1, ⟨0, 0, 0, 1⟩, some ⟨1, 0, 0, 0⟩⟩ ⟨"Hips", 1⟩
      ⟨"mixamo.com", 1, [Track.rotation "mixamorigHips.quaternion" [0] [0, 0, 0, 1]]⟩
      rfl rfl rfl⟩

/-! ## Missing bones and the failure behaviour (claim C3) -/

/-- A source asset with a clip but no resolvable bone nodes at all, in
particular no hips. -/
def noHipsAsset : MixamoAsset :=
  ⟨[⟨"mixamo.com", 1, [Track.rotation "mixamorigHips.quaternion" [0] [0, 0, 0, 1]]⟩],
   fun _ => none⟩

/-- Counterexample to claim C3 as stated: with no resolvable hip bone the
retarget does not skip and return a clip — it throws.  The non-null
assertion on the hips lookup dereferences undefined, modelled as the error
result, so no clip is produced. -/
theorem c3_missing_hips_counterexample :
    loadMixamoAnimation hipsRigMap noHipsAsset sampleVrm
      = .error "TypeError: cannot read position of undefined"
  ∧ ∀ clip, loadMixamoAnimation hipsRigMap noHipsAsset sampleVrm ≠ .ok clip := by
  refine ⟨rfl, ?_⟩
  intro clip h
  rw [show loadMixamoAnimation hipsRigMap noHipsAsset sampleVrm
      = .error "TypeError: cannot read position of undefined" from rfl] at h
  exact Except.noConfusion h

/-- Claim C3 amended: a track whose bone identifier is unmapped, or whose
target or source node cannot be resolved, is skipped without error and
without output; but a missing hip bone in either asset, and a resolved
source node without a parent, make the retarget throw instead of
skipping. -/
theorem c3_missing_rest_amended :
    (∀ (rigMap : String → Option String) (asset : MixamoAsset) (vrm : VrmModel)
        (scale : ℚ) (t : Track),
      rigMap (trackBoneId t) = none →
      processTrack rigMap asset vrm scale t = .ok ([], t))
  ∧ (∀ (rigMap : String → Option String) (asset : MixamoAsset) (vrm : VrmModel)
        (scale : ℚ) (t : Track) (b : String),
      rigMap (trackBoneId t) = some b →
      vrm.boneNode b = none →
      processTrack rigMap asset vrm scale t = .ok ([], t))
  ∧ (∀ (rigMap : String → Option String) (asset : MixamoAsset) (vrm : VrmModel)
        (scale : ℚ) (t : Track) (b : String),
      rigMap (trackBoneId t) = some b →
      asset.getObjectByName (trackBoneId t) = none →
      processTrack rigMap asset vrm scale t = .ok ([], t))
  ∧ (∀ (rigMap : String → Option String) (asset : MixamoAsset) (vrm : VrmModel),
      asset.getObjectByName "mixamorigHips" = none →
      ∃ e, loadMixamoAnimation rigMap asset vrm = .error e)
  ∧ (∀ (rigMap : String → Option String) (asset : MixamoAsset) (vrm : VrmModel)
        (mHips : RigNode),
      asset.getObjectByName "mixamorigHips" = some mHips →
      vrm.boneNode "hips" = none →
      ∃ e, loadMixamoAnimation rigMap asset vrm = .error e)
  ∧ (∀ (rigMap : String → Option String) (asset : MixamoAsset) (vrm : VrmModel)
        (scale : ℚ) (t : Track) (b : String) (vn : VrmNode) (node : RigNode),
      rigMap (trackBoneId t) = some b →
      vrm.boneNode b = some vn →
      asset.getObjectByName (trackBoneId t) = some node →
      node.parentWorldQuat = none →
      ∃ e, processTrack rigMap asset vrm scale t = .error e) := by
  refine ⟨?_, ?_, ?_, ?_, ?_, ?_⟩
  · intro rigMap asset vrm scale t hb
    simp only [processTrack, hb]
  · intro rigMap asset vrm scale t b hb hvn
    cases hno : asset.getObjectByName (trackBoneId t) <;>
      simp only [processTrack, hb, hvn, hno]
  · intro rigMap asset vrm scale t b hb hno
    cases hvn : vrm.boneNode b <;>
      simp only [processTrack, hb, hvn, hno]
  · intro rigMap asset vrm hm
    exact ⟨"TypeError: cannot read position of undefined",
      by simp only [loadMixamoAnimation, loadMixamoAnimationCore, hm, Except.map]⟩
  · intro rigMap asset vrm mHips hm hv
    exact ⟨"TypeError: cannot read getWorldPosition of null",
      by simp only [loadMixamoAnimation, loadMixamoAnimationCore, hm, hv, Except.map]⟩
  · intro rigMap asset vrm scale t b vn node hb hvn hnode hp
    refine ⟨"TypeError: mixamoRigNode.parent is null", ?_⟩
    cases t <;> simp only [processTrack, hb, hvn, hnode, hp]

/-- Witness for the amended C3 at concrete inputs: an unmapped spine track
is skipped, while the asset without a hip node makes the load fail. -/
theorem c3_missing_rest_amended_witness :
    processTrack hipsRigMap sampleAsset sampleVrm 1
        (Track.rotation "mixamorigSpine.quaternion" [0] [0, 0, 0, 1])
      = .ok ([], Track.rotation "mixamorigSpine.quaternion" [0] [0, 0, 0, 1])
  ∧ ∃ e, loadMixamoAnimation hipsRigMap noHipsAsset sampleVrm = .error e :=
  ⟨c3_missing_rest_amended.1 hipsRigMap sampleAsset sampleVrm 1
      (Track.rotation "mixamorigSpine.quaternion" [0] [0, 0, 0, 1]) rfl,
   c3_missing_rest_amended.2.2.2.1 hipsRigMap noHipsAsset sampleVrm rfl⟩

/-! ## Purity of the retarget (claim C4) -/

/-- Counterexample to claim C4 as stated: the retarget mutates the loaded
source clip in place.  After the run, the hips rotation track of the
source clip holds the retargeted quaternion, not the original keyframe
value: the identity keyframe has been overwritten with the parent rest
rotation. -/
theorem c4_mutation_counterexample :
    loadMixamoAnimationCore hipsRigMap sampleAsset sampleVrm
      = .ok (⟨"vrmAnimation", 1, [Track.rotation "Hips.quaternion" [0] [1, 0, 0, 0]]⟩,
             [Track.rotation "mixamorigHips.quaternion" [0] [1, 0, 0, 0]])
  ∧ ([Track.rotation "mixamorigHips.quaternion" [0] [(1:ℚ), 0, 0, 0]]
      : List Track)
      ≠ [Track.rotation "mixamorigHips.quaternion" [0] [0, 0, 0, 1]] := by
  constructor
  · with_unfolding_all rfl
  · intro h
    simp at h

/-- Claim C4 amended: the retarget is deterministic — it is a pure function
of the loaded asset and avatar, and value-equal inputs give identical
results, which is why reloading the asset on every invocation makes
repeated calls bit-identical — but it is not mutation-free: position track
values are left unchanged in the source clip, while every processed
rotation track's values are overwritten in place with the retargeted
quaternions. -/
theorem c4_mutation_amended :
    (∀ (rigMap : String → Option String) (asset : MixamoAsset) (vrm : VrmModel)
        (scale : ℚ) (nm : String) (times values : List ℚ)
        (res : List Track × Track),
      processTrack rigMap asset vrm scale (Track.position nm times values) = .ok res →
      res.2 = Track.position nm times values)
  ∧ (∀ (rigMap : String → Option String) (asset : MixamoAsset) (vrm : VrmModel)
        (scale : ℚ) (nm : String) (times values : List ℚ) (b : String)
        (vn : VrmNode) (node : RigNode) (p : Quat),
      rigMap (trackBoneId (Track.rotation nm times values)) = some b →
      vrm.boneNode b = some vn →
      asset.getObjectByName (trackBoneId (Track.rotation nm times values)) = some node →
      node.parentWorldQuat = some p →
      ∀ res, processTrack rigMap asset vrm scale (Track.rotation nm times values) = .ok res →
        res.2 = Track.rotation nm times
          (retargetRotValues p (quatConj node.worldQuat) values))
  ∧ (∀ (rigMap : String → Option String) (a1 a2 : MixamoAsset) (vrm : VrmModel),
      a1.animations = a2.animations →
      a1.getObjectByName = a2.getObjectByName →
      loadMixamoAnimationCore rigMap a1 vrm = loadMixamoAnimationCore rigMap a2 vrm) := by
  refine ⟨?_, ?_, ?_⟩
  · intro rigMap asset vrm scale nm times values res h
    rcases hb : rigMap (trackBoneId (Track.position nm times values)) with _ | b
    · simp only [processTrack, hb, Except.ok.injEq] at h
      rw [← h]
    · rcases hvn : vrm.boneNode b with _ | vn
      · rcases hno : asset.getObjectByName (trackBoneId (Track.position nm times values))
            with _ | node <;>
          · simp only [processTrack, hb, hvn, hno, Except.ok.injEq] at h
            rw [← h]
      · rcases hno : asset.getObjectByName (trackBoneId (Track.position nm times values))
            with _ | node
        · simp only [processTrack, hb, hvn, hno, Except.ok.injEq] at h
          rw [← h]
        · rcases hp : node.parentWorldQuat with _ | p
          · simp only [processTrack, hb, hvn, hno, hp] at h
            exact Except.noConfusion h
          · simp only [processTrack, hb, hvn, hno, hp, Except.ok.injEq] at h
            rw [← h]
  · intro rigMap asset vrm scale nm times values b vn node p hb hvn hnode hp res h
    simp only [processTrack, hb, hvn, hnode, hp, Except.ok.injEq] at h
    rw [← h]
  · intro rigMap a1 a2 vrm h1 h2
    cases a1
    cases a2
    simp only at h1 h2
    rw [h1, h2]

/-- Witness for the amended C4 at concrete inputs: a position track of the
sample asset comes back unchanged, the processed hips rotation track comes
back with its values overwritten by the retarget, and value-equal assets
give identical results. -/
theorem c4_mutation_amended_witness :
    (([Track.position ("Hips" ++ "." ++ trackProp
          (Track.position "mixamorigHips.position" [0] [2, 4, 6])) [0]
          (retargetPosValues (sampleVrm.metaVersion == some "0") (1/2) [2, 4, 6])],
       Track.position "mixamorigHips.position" [0] [(2:ℚ), 4, 6]).2
      = Track.position "mixamorigHips.position" [0] [2, 4, 6])
  ∧ (([Track.rotation ("Hips" ++ "." ++ trackProp
          (Track.rotation "mixamorigHips.quaternion" [0] [0, 0, 0, 1])) [0]
          (legacyRotValues (sampleVrm.metaVersion == some "0")
            (retargetRotValues ⟨1, 0, 0, 0⟩ (quatConj ⟨0, 0, 0, 1⟩) [0, 0, 0, 1]))],
       Track.rotation "mixamorigHips.quaternion" [0]
         (retargetRotValues ⟨1, 0, 0, 0⟩ (quatConj ⟨0, 0, 0, 1⟩) [0, 0, 0, 1])).2
      = Track.rotation "mixamorigHips.quaternion" [0]
          (retargetRotValues ⟨1, 0, 0, 0⟩ (quatConj ⟨0, 0, 0, 1⟩) [0, 0, 0, 1]))
  ∧ loadMixamoAnimationCore hipsRigMap sampleAsset sampleVrm
      = loadMixamoAnimationCore hipsRigMap sampleAsset sampleVrm :=
  ⟨c4_mutation_amended.1 hipsRigMap sampleAsset sampleVrm (1/2)
      "mixamorigHips.position" [0] [2, 4, 6] _ rfl,
   c4_mutation_amended.2.1 hipsRigMap sampleAsset sampleVrm 1
      "mixamorigHips.quaternion" [0] [0, 0, 0, 1] "hips" ⟨"Hips", 1⟩
      ⟨1, ⟨0, 0, 0, 1⟩, some ⟨1, 0, 0, 0⟩⟩ ⟨1, 0, 0, 0⟩ rfl rfl rfl rfl _ rfl,
   c4_mutation_amended.2.2 hipsRigMap sampleAsset sampleAsset sampleVrm rfl rfl⟩
